import Mathlib

/-!
Verification development for the arya-node product-catalog backend.

The file shallowly embeds the persistence adapter of src/db.js and the
request-handler logic of src/server.js: pure helpers become Lean functions,
the SQL tables become lists of records, the adapter becomes explicit state
passing over an in-memory image and an on-disk image, and fallible handlers
return Except values next to the updated state.  The theorems at the end of
the file settle the behavioral claims about slug normalization, stock
adjustment, transactional persistence, cascading deletes, admin
self-protection, the bootstrap-admin upsert, and JSON import remapping.
-/

namespace AryaNode

/-! ### Slug derivation (src/server.js, function slugify)

The source trims, lower-cases, strips every character outside the class
[a-z0-9 whitespace hyphen], replaces each whitespace run by one hyphen and
each hyphen run by one hyphen, all as global regular-expression replaces.
It is embedded here on lists of characters; character classes are stated
on code points. -/

/-- Whitespace class of the JavaScript regular expressions, i.e. the class
denoted by a backslash-s: ASCII whitespace together with the Unicode space
code points recognized by the engine. -/
def isWsChar (c : Char) : Bool :=
  decide (c.toNat = 32 ∨ c.toNat = 9 ∨ c.toNat = 10 ∨ c.toNat = 11 ∨
    c.toNat = 12 ∨ c.toNat = 13 ∨ c.toNat = 160 ∨ c.toNat = 5760 ∨
    (8192 ≤ c.toNat ∧ c.toNat ≤ 8202) ∨ c.toNat = 8232 ∨ c.toNat = 8233 ∨
    c.toNat = 8239 ∨ c.toNat = 8287 ∨ c.toNat = 12288 ∨ c.toNat = 65279)

/-- Lower-casing of a single character, on the ASCII range that the slug
character class can retain (code points 65 to 90 map to 97 to 122). -/
def lowerChar (c : Char) : Char :=
  if 65 ≤ c.toNat ∧ c.toNat ≤ 90 then Char.ofNat (c.toNat + 32) else c

/-- Character class kept by the stripping step: lowercase letters, digits,
whitespace and the hyphen (code point 45). -/
def isSlugKeep (c : Char) : Bool :=
  decide ((97 ≤ c.toNat ∧ c.toNat ≤ 122) ∨ (48 ≤ c.toNat ∧ c.toNat ≤ 57)) ||
  isWsChar c || decide (c.toNat = 45)

/-- Characters that can appear in a finished slug: lowercase letters, digits
and the hyphen. -/
def goodOut (c : Char) : Bool :=
  decide ((97 ≤ c.toNat ∧ c.toNat ≤ 122) ∨ (48 ≤ c.toNat ∧ c.toNat ≤ 57) ∨
    c.toNat = 45)

/-- Trim of leading and trailing whitespace (String.prototype.trim). -/
def trimChars (l : List Char) : List Char :=
  ((l.dropWhile isWsChar).reverse.dropWhile isWsChar).reverse

/-- State machine for the global replacement of whitespace runs by one
hyphen: the Boolean records whether the scanner is inside a whitespace run
whose hyphen has already been emitted. -/
def collapseWsAux : Bool → List Char → List Char
  | _, [] => []
  | true, c :: rest =>
    if isWsChar c then collapseWsAux true rest
    else c :: collapseWsAux false rest
  | false, c :: rest =>
    if isWsChar c then '-' :: collapseWsAux true rest
    else c :: collapseWsAux false rest

/-- Replacement of every maximal whitespace run by a single hyphen,
embedding the replace of the regular expression backslash-s-plus. -/
def collapseWs (l : List Char) : List Char :=
  collapseWsAux false l

/-- State machine for the global replacement of hyphen runs by one hyphen:
the Boolean records whether the scanner is inside a hyphen run whose
leading hyphen has already been emitted. -/
def collapseDashAux : Bool → List Char → List Char
  | _, [] => []
  | true, c :: rest =>
    if c == '-' then collapseDashAux true rest
    else c :: collapseDashAux false rest
  | false, c :: rest =>
    if c == '-' then '-' :: collapseDashAux true rest
    else c :: collapseDashAux false rest

/-- Replacement of every maximal hyphen run by a single hyphen, embedding
the replace of the regular expression hyphen-plus. -/
def collapseDash (l : List Char) : List Char :=
  collapseDashAux false l

/-- Composition of the five steps of the source function slugify, on lists
of characters, in source order. -/
def slugifyList (l : List Char) : List Char :=
  collapseDash (collapseWs (((trimChars l).map lowerChar).filter isSlugKeep))

/-- Embedding of slugify from src/server.js. -/
def slugify (s : String) : String :=
  ⟨slugifyList s.data⟩

/-- Absence of two adjacent hyphens in a list of characters. -/
def noDD : List Char → Bool
  | [] => true
  | [_] => true
  | a :: b :: rest => (!(a == '-' && b == '-')) && noDD (b :: rest)

theorem goodOut_not_ws {c : Char} (h : goodOut c = true) : isWsChar c = false := by
  simp only [goodOut, decide_eq_true_eq] at h
  simp only [isWsChar, decide_eq_false_iff_not]
  omega

theorem goodOut_lowerChar {c : Char} (h : goodOut c = true) : lowerChar c = c := by
  simp only [goodOut, decide_eq_true_eq] at h
  unfold lowerChar
  rw [if_neg]
  omega

theorem goodOut_isSlugKeep {c : Char} (h : goodOut c = true) : isSlugKeep c = true := by
  simp only [goodOut, decide_eq_true_eq] at h
  simp only [isSlugKeep, Bool.or_eq_true, decide_eq_true_eq]
  omega

theorem isSlugKeep_not_ws_goodOut {c : Char} (h : isSlugKeep c = true)
    (hw : isWsChar c = false) : goodOut c = true := by
  simp only [isSlugKeep, Bool.or_eq_true, decide_eq_true_eq] at h
  rcases h with (h | h) | h
  · simp only [goodOut, decide_eq_true_eq]; omega
  · rw [h] at hw; simp at hw
  · simp only [goodOut, decide_eq_true_eq]; omega

theorem dropWhile_eq_self {p : Char → Bool} {l : List Char}
    (h : ∀ c ∈ l, p c = false) : l.dropWhile p = l := by
  cases l with
  | nil => rfl
  | cons a t =>
    rw [List.dropWhile_cons, if_neg]
    simp [h a (List.mem_cons_self a t)]

theorem trimChars_eq_self {l : List Char}
    (h : ∀ c ∈ l, isWsChar c = false) : trimChars l = l := by
  unfold trimChars
  rw [dropWhile_eq_self h]
  rw [dropWhile_eq_self (by intro c hc; exact h c (List.mem_reverse.mp hc))]
  exact List.reverse_reverse l

theorem map_eq_self_of {f : Char → Char} {l : List Char}
    (h : ∀ c ∈ l, f c = c) : l.map f = l := by
  induction l with
  | nil => rfl
  | cons a t ih =>
    simp only [List.map_cons]
    rw [h a (List.mem_cons_self a t), ih (fun c hc => h c (List.mem_cons_of_mem a hc))]

theorem collapseWsAux_eq_self {l : List Char} (b : Bool)
    (h : ∀ c ∈ l, isWsChar c = false) : collapseWsAux b l = l := by
  induction l generalizing b with
  | nil => cases b <;> rfl
  | cons a t ih =>
    have ha : isWsChar a = false := h a (List.mem_cons_self a t)
    have ht : ∀ c ∈ t, isWsChar c = false :=
      fun c hc => h c (List.mem_cons_of_mem a hc)
    cases b with
    | true => simp only [collapseWsAux, ha, if_false, Bool.false_eq_true, ih false ht]
    | false => simp only [collapseWsAux, ha, if_false, Bool.false_eq_true, ih false ht]

theorem mem_collapseWsAux {l : List Char} {b : Bool} {c : Char}
    (h : c ∈ collapseWsAux b l) : c = '-' ∨ (c ∈ l ∧ isWsChar c = false) := by
  induction l generalizing b with
  | nil => cases b <;> simp [collapseWsAux] at h
  | cons a t ih =>
    have step : ∀ b' : Bool, c ∈ collapseWsAux b' t →
        c = '-' ∨ (c ∈ a :: t ∧ isWsChar c = false) := by
      intro b' hb
      rcases ih hb with h1 | h2
      · exact Or.inl h1
      · exact Or.inr ⟨List.mem_cons_of_mem a h2.1, h2.2⟩
    cases ha : isWsChar a with
    | true =>
      cases b with
      | true =>
        simp only [collapseWsAux, ha, if_true] at h
        exact step true h
      | false =>
        simp only [collapseWsAux, ha, if_true] at h
        rcases List.mem_cons.mp h with h1 | h1
        · exact Or.inl h1
        · exact step true h1
    | false =>
      cases b with
      | true =>
        simp only [collapseWsAux, ha, if_false, Bool.false_eq_true] at h
        rcases List.mem_cons.mp h with h1 | h1
        · subst h1; exact Or.inr ⟨List.mem_cons_self c t, ha⟩
        · exact step false h1
      | false =>
        simp only [collapseWsAux, ha, if_false, Bool.false_eq_true] at h
        rcases List.mem_cons.mp h with h1 | h1
        · subst h1; exact Or.inr ⟨List.mem_cons_self c t, ha⟩
        · exact step false h1

theorem mem_collapseDashAux {l : List Char} {b : Bool} {c : Char}
    (h : c ∈ collapseDashAux b l) : c = '-' ∨ c ∈ l := by
  induction l generalizing b with
  | nil => cases b <;> simp [collapseDashAux] at h
  | cons a t ih =>
    have step : ∀ b' : Bool, c ∈ collapseDashAux b' t → c = '-' ∨ c ∈ a :: t := by
      intro b' hb
      rcases ih hb with h1 | h2
      · exact Or.inl h1
      · exact Or.inr (List.mem_cons_of_mem a h2)
    cases ha : (a == '-') with
    | true =>
      cases b with
      | true =>
        simp only [collapseDashAux, ha, if_true] at h
        exact step true h
      | false =>
        simp only [collapseDashAux, ha, if_true] at h
        rcases List.mem_cons.mp h with h1 | h1
        · exact Or.inl h1
        · exact step true h1
    | false =>
      cases b with
      | true =>
        simp only [collapseDashAux, ha, if_false, Bool.false_eq_true] at h
        rcases List.mem_cons.mp h with h1 | h1
        · subst h1; exact Or.inr (List.mem_cons_self c t)
        · exact step false h1
      | false =>
        simp only [collapseDashAux, ha, if_false, Bool.false_eq_true] at h
        rcases List.mem_cons.mp h with h1 | h1
        · subst h1; exact Or.inr (List.mem_cons_self c t)
        · exact step false h1

theorem noDD_tail {a : Char} {l : List Char} (h : noDD (a :: l) = true) :
    noDD l = true := by
  cases l with
  | nil => rfl
  | cons b t =>
    unfold noDD at h
    simp only [Bool.and_eq_true] at h
    exact h.2

theorem noDD_cons {a : Char} {l : List Char} (h1 : noDD l = true)
    (h2 : ∀ x, l.head? = some x → (a == '-' && x == '-') = false) :
    noDD (a :: l) = true := by
  cases l with
  | nil => rfl
  | cons b t =>
    unfold noDD
    simp only [Bool.and_eq_true]
    refine ⟨?_, h1⟩
    rw [h2 b rfl]
    rfl

theorem collapseDashAux_true_head {l : List Char} {c : Char}
    (h : (collapseDashAux true l).head? = some c) : (c == '-') = false := by
  induction l with
  | nil => simp [collapseDashAux] at h
  | cons a t ih =>
    cases ha : (a == '-') with
    | true =>
      simp only [collapseDashAux, ha, if_true] at h
      exact ih h
    | false =>
      simp only [collapseDashAux, ha, if_false, Bool.false_eq_true,
        List.head?_cons, Option.some.injEq] at h
      subst h
      exact ha

theorem noDD_collapseDashAux (l : List Char) (b : Bool) :
    noDD (collapseDashAux b l) = true := by
  induction l generalizing b with
  | nil => cases b <;> rfl
  | cons a t ih =>
    cases ha : (a == '-') with
    | true =>
      cases b with
      | true =>
        simp only [collapseDashAux, ha, if_true]
        exact ih true
      | false =>
        simp only [collapseDashAux, ha, if_true]
        refine noDD_cons (ih true) ?_
        intro x hx
        rw [collapseDashAux_true_head hx]
        rfl
    | false =>
      cases b <;>
      · simp only [collapseDashAux, ha, if_false, Bool.false_eq_true]
        refine noDD_cons (ih false) ?_
        intro x _
        rw [ha]
        rfl

theorem collapseDashAux_eq_self :
    ∀ l : List Char, noDD l = true →
      collapseDashAux false l = l ∧
      (l.head? ≠ some '-' → collapseDashAux true l = l) := by
  intro l
  induction l with
  | nil => exact fun _ => ⟨rfl, fun _ => rfl⟩
  | cons a t ih =>
    intro h
    have ht := noDD_tail h
    have iht := ih ht
    cases ha : (a == '-') with
    | true =>
      have haeq : a = '-' := by simpa using ha
      constructor
      · simp only [collapseDashAux, ha, if_true, List.cons.injEq]
        refine ⟨haeq.symm, iht.2 ?_⟩
        intro hhd
        cases t with
        | nil => simp at hhd
        | cons b u =>
          simp only [List.head?_cons, Option.some.injEq] at hhd
          unfold noDD at h
          simp only [Bool.and_eq_true] at h
          have h1 := h.1
          rw [haeq, hhd] at h1
          simp at h1
      · intro hhd
        exfalso
        apply hhd
        simp only [List.head?_cons, Option.some.injEq]
        exact haeq
    | false =>
      constructor
      · simp only [collapseDashAux, ha, if_false, Bool.false_eq_true, iht.1]
      · intro _
        simp only [collapseDashAux, ha, if_false, Bool.false_eq_true, iht.1]

theorem collapseWs_eq_self {l : List Char}
    (h : ∀ c ∈ l, isWsChar c = false) : collapseWs l = l :=
  collapseWsAux_eq_self false h

theorem collapseDash_eq_self {l : List Char} (h : noDD l = true) :
    collapseDash l = l :=
  (collapseDashAux_eq_self l h).1

theorem mem_slugifyList_goodOut {l : List Char} {c : Char}
    (h : c ∈ slugifyList l) : goodOut c = true := by
  unfold slugifyList collapseDash at h
  rcases mem_collapseDashAux h with h1 | h1
  · subst h1; rfl
  · unfold collapseWs at h1
    rcases mem_collapseWsAux h1 with h2 | h2
    · subst h2; rfl
    · have hk : isSlugKeep c = true := List.of_mem_filter h2.1
      exact isSlugKeep_not_ws_goodOut hk h2.2

theorem slugifyList_idem (l : List Char) :
    slugifyList (slugifyList l) = slugifyList l := by
  have hg : ∀ c ∈ slugifyList l, goodOut c = true :=
    fun c hc => mem_slugifyList_goodOut hc
  have hw : ∀ c ∈ slugifyList l, isWsChar c = false :=
    fun c hc => goodOut_not_ws (hg c hc)
  have hnd : noDD (slugifyList l) = true := noDD_collapseDashAux _ false
  conv_lhs => rw [slugifyList]
  rw [trimChars_eq_self hw]
  rw [map_eq_self_of (fun c hc => goodOut_lowerChar (hg c hc))]
  rw [List.filter_eq_self.mpr (fun c hc => goodOut_isSlugKeep (hg c hc))]
  rw [collapseWs_eq_self hw]
  exact collapseDash_eq_self hnd

/-- C7: slugify is idempotent: applying the normalization of trimming,
lower-casing, stripping to the slug character class, collapsing whitespace
runs to a hyphen and collapsing hyphen runs a second time leaves the slug
unchanged. -/
theorem claim_C7_slugify_idem (s : String) : slugify (slugify s) = slugify s := by
  unfold slugify
  exact congrArg String.mk (slugifyList_idem s.data)

example : slugify "  Hello   World!--x  " = "hello-world-x" := by decide

/-! ### Data model (schema of src/db.js, function migrate)

Rows are records; TEXT columns are String, nullable columns are Option,
INTEGER flag columns written as 0 or 1 by the handlers are Bool, and every
AUTOINCREMENT primary key is a Nat handed out by a per-table counter held
in the Db record (modelling last_insert_rowid). -/

/-- Failure outcomes that the request handlers report instead of writing. -/
inductive ApiErr where
  | badRequest (msg : String)
  | notFound (msg : String)
  | serverError (msg : String)
deriving DecidableEq, Repr

/-- Row of the admins table. -/
structure Admin where
  id : Nat
  email : String
  password_hash : String
  name : String
  role : String
  created_at : String
deriving DecidableEq, Repr

/-- Row of the categories table. -/
structure Category where
  id : Nat
  name : String
  slug : String
  description : String
  banner_title : String
  banner_subtitle : String
  banner_cta_text : String
  banner_cta_url : String
  sort_order : Int
  is_active : Bool
  created_at : String
  updated_at : String
deriving DecidableEq, Repr

/-- Row of the products table.  The price REAL column does not appear on
products; pricing tiers are an opaque serialized TEXT blob. -/
structure Product where
  id : Nat
  title : String
  short_desc : String
  description : String
  image : String
  category_id : Option Nat
  status : String
  low_stock_threshold : Option Int
  pricing_json : Option String
  created_at : String
  updated_at : String
deriving DecidableEq, Repr

/-- Row of the variants table.  The REAL price column is modelled over Int
(the claims under verification never inspect fractional prices). -/
structure Variant where
  id : Nat
  product_id : Nat
  sku : Option String
  attributes_json : String
  price : Option Int
  stock_qty : Int
  is_active : Bool
  created_at : String
  updated_at : String
deriving DecidableEq, Repr

/-- Row of the inventory_adjustments table. -/
structure Adjustment where
  id : Nat
  variant_id : Nat
  delta_qty : Int
  reason : String
  performed_by : Option Nat
  created_at : String
deriving DecidableEq, Repr

/-- In-memory database image: the five tables the claims touch, with one
id counter per AUTOINCREMENT table. -/
structure Db where
  admins : List Admin
  categories : List Category
  products : List Product
  variants : List Variant
  adjustments : List Adjustment
  nextAdminId : Nat
  nextCategoryId : Nat
  nextProductId : Nat
  nextVariantId : Nat
  nextAdjustmentId : Nat
deriving DecidableEq, Repr

/-- Empty database with counters at 1, matching a fresh SQLite image. -/
def Db.empty : Db :=
  ⟨[], [], [], [], [], 1, 1, 1, 1, 1⟩

/-! ### Persistence adapter (src/db.js, createAdapter)

The adapter holds the in-memory image (mem), the last serialized on-disk
image (disk) and the inTransaction flag.  Serializing the whole database to
the backing file is modelled by copying mem to disk. -/

/-- Adapter state over a database image of type sigma. -/
structure Adapter (σ : Type) where
  mem : σ
  disk : σ
  inTx : Bool
deriving DecidableEq, Repr

/-- Observable adapter actions, recorded as a trace: the BEGIN, COMMIT and
ROLLBACK statements and the serialize-to-disk step. -/
inductive Ev where
  | beginTx
  | commitTx
  | rollbackTx
  | persistEv
deriving DecidableEq, Repr

/-- Embedding of the transaction wrapper of src/db.js.  A unit of work is a
function from the memory image to a final memory image next to an optional
raised error; on an error the partially mutated image is discarded by
ROLLBACK, which restores the image from the start of the transaction.  When
the flag is already set the wrapper runs the function directly.  The third
component is the trace of adapter actions the wrapper itself performs. -/
def runTransaction {σ ε : Type} (fn : σ → σ × Option ε) (st : Adapter σ) :
    Adapter σ × Option ε × List Ev :=
  if st.inTx then
    ({ st with mem := (fn st.mem).1 }, (fn st.mem).2, [])
  else
    match (fn st.mem).2 with
    | none =>
      (⟨(fn st.mem).1, (fn st.mem).1, false⟩, none,
        [Ev.beginTx, Ev.commitTx, Ev.persistEv])
    | some e => (⟨st.mem, st.disk, false⟩, some e, [Ev.beginTx, Ev.rollbackTx])

theorem runTransaction_commit {σ ε : Type} (fn : σ → σ × Option ε)
    (st : Adapter σ) (h : st.inTx = false) (hok : (fn st.mem).2 = none) :
    runTransaction fn st =
      (⟨(fn st.mem).1, (fn st.mem).1, false⟩, none,
        [Ev.beginTx, Ev.commitTx, Ev.persistEv]) := by
  unfold runTransaction
  rw [if_neg (by rw [h]; exact Bool.false_ne_true)]
  rw [hok]

theorem runTransaction_rollback {σ ε : Type} (fn : σ → σ × Option ε)
    (st : Adapter σ) (e : ε) (h : st.inTx = false)
    (herr : (fn st.mem).2 = some e) :
    runTransaction fn st =
      (⟨st.mem, st.disk, false⟩, some e, [Ev.beginTx, Ev.rollbackTx]) := by
  unfold runTransaction
  rw [if_neg (by rw [h]; exact Bool.false_ne_true)]
  rw [herr]

theorem runTransaction_nested {σ ε : Type} (fn : σ → σ × Option ε)
    (st : Adapter σ) (h : st.inTx = true) :
    runTransaction fn st =
      ({ st with mem := (fn st.mem).1 }, (fn st.mem).2, []) := by
  unfold runTransaction
  rw [if_pos h]

/-- Sequencing of fallible steps inside one transaction body: the iteration
stops at the first raised error, returning the partially mutated image
(exactly what a forEach over prepared-statement runs does before the
enclosing wrapper rolls back). -/
def foldStep {α σ ε : Type} (f : α → σ → σ × Option ε) :
    List α → σ → σ × Option ε
  | [], s => (s, none)
  | a :: rest, s =>
    match f a s with
    | (s', none) => foldStep f rest s'
    | (s', some e) => (s', some e)

/-- C2: invoking the wrapped function outside any active transaction runs
BEGIN, the function, then on success COMMIT followed by exactly one
serialize-to-disk of the committed image; on an error it runs ROLLBACK,
re-raises the error, and leaves both the committed memory image and the
on-disk image exactly as before the transaction; invoking it while a
transaction is already active runs the function directly with no BEGIN,
COMMIT, ROLLBACK or serialize. -/
theorem claim_C2_transaction {σ ε : Type} (fn : σ → σ × Option ε)
    (st : Adapter σ) :
    (st.inTx = false → (fn st.mem).2 = none →
      runTransaction fn st =
        (⟨(fn st.mem).1, (fn st.mem).1, false⟩, none,
          [Ev.beginTx, Ev.commitTx, Ev.persistEv])) ∧
    (∀ e, st.inTx = false → (fn st.mem).2 = some e →
      runTransaction fn st =
        (⟨st.mem, st.disk, false⟩, some e, [Ev.beginTx, Ev.rollbackTx])) ∧
    (st.inTx = true →
      runTransaction fn st =
        ({ st with mem := (fn st.mem).1 }, (fn st.mem).2, [])) := by
  refine ⟨?_, ?_, ?_⟩
  · intro h hok
    exact runTransaction_commit fn st h hok
  · intro e h herr
    exact runTransaction_rollback fn st e h herr
  · intro h
    exact runTransaction_nested fn st h

/-- Witness for C2 at a concrete store: a successful increment over Nat
commits and persists once, with the expected trace. -/
theorem claim_C2_transaction_witness :
    (Adapter.mk 0 5 false : Adapter Nat).inTx = false ∧
    ((fun n => (n + 1, (none : Option Unit))) (0 : Nat)).2 = none ∧
    runTransaction (fun n => (n + 1, (none : Option Unit)))
        (Adapter.mk 0 5 false) =
      (⟨1, 1, false⟩, none, [Ev.beginTx, Ev.commitTx, Ev.persistEv]) :=
  ⟨rfl, rfl,
    (claim_C2_transaction (fun n => (n + 1, (none : Option Unit)))
      (Adapter.mk 0 5 false)).1 rfl rfl⟩

/-! ### Helper lemmas on row lookup and row update -/

/-- Lookup after a WHERE-matched row update: updating exactly the rows that
satisfy the predicate with an id-preserving function commutes with find?. -/
theorem find?_map_ite {α : Type} (l : List α) (p : α → Bool) (f : α → α)
    (hf : ∀ a, p a = true → p (f a) = true) :
    (l.map fun a => if p a then f a else a).find? p = (l.find? p).map f := by
  induction l with
  | nil => rfl
  | cons a t ih =>
    cases h : p a with
    | true =>
      simp only [List.map_cons, if_pos h]
      rw [List.find?_cons_of_pos _ (hf a h), List.find?_cons_of_pos _ h]
      rfl
    | false =>
      have hne : ¬ (p a = true) := by rw [h]; exact Bool.false_ne_true
      simp only [List.map_cons, if_neg hne]
      rw [List.find?_cons_of_neg _ hne, List.find?_cons_of_neg _ hne]
      exact ih

/-! ### Stock adjustment (src/server.js, POST adjust-stock handler)

The handler coerces the delta with Number; a non-numeric payload yields NaN
and is modelled as none, a numeric payload as some of its value.  A NaN or
zero delta is rejected before any read or write.  Otherwise the clamped new
quantity is computed from the looked-up variant and both writes run inside
one db.transaction wrapper. -/

/-- Lookup of one variant row by primary key. -/
def findVariant (db : Db) (vid : Nat) : Option Variant :=
  db.variants.find? (fun v => v.id == vid)

/-- Transaction body of the adjust-stock handler: the UPDATE of the variant
row followed by the INSERT of the inventory_adjustments row recording the
raw requested delta. -/
def adjustStockBody (vid : Nat) (newQty : Int) (deltaQty : Int)
    (reason : String) (adminId : Nat) (now : String) (db : Db) :
    Db × Option ApiErr :=
  let db1 := { db with
    variants := db.variants.map fun (v : Variant) =>
      if v.id == vid then { v with stock_qty := newQty, updated_at := now }
      else v }
  let db2 := { db1 with
    adjustments := db1.adjustments ++
      [⟨db1.nextAdjustmentId, vid, deltaQty, reason, some adminId, now⟩],
    nextAdjustmentId := db1.nextAdjustmentId + 1 }
  (db2, none)

/-- Embedding of the adjust-stock handler. -/
def adjustStock (vid : Nat) (delta : Option Int) (reason : String)
    (adminId : Nat) (now : String) (st : Adapter Db) :
    (Adapter Db × Except ApiErr Int) × List Ev :=
  match delta with
  | none =>
    ((st, Except.error (ApiErr.badRequest "Delta quantity is required.")), [])
  | some deltaQty =>
    if deltaQty = 0 then
      ((st, Except.error (ApiErr.badRequest "Delta quantity is required.")), [])
    else
      match findVariant st.mem vid with
      | none => ((st, Except.error (ApiErr.notFound "Variant not found")), [])
      | some v =>
        let newQty := max 0 (v.stock_qty + deltaQty)
        let r := runTransaction
          (adjustStockBody vid newQty deltaQty reason adminId now) st
        match r.2.1 with
        | none => ((r.1, Except.ok newQty), r.2.2)
        | some e => ((r.1, Except.error e), r.2.2)

/-- C1: for an existing variant and a numeric non-zero delta, adjust-stock
answers the clamped quantity max 0 (old + delta), stores it on the variant
row, appends exactly one inventory adjustment carrying the raw unclamped
delta, and performs both writes inside one committed, once-persisted
transaction; a non-numeric or zero delta is rejected with no state change
and no transaction. -/
theorem claim_C1_adjust_stock (st : Adapter Db) (vid : Nat) (d : Int)
    (reason : String) (adminId : Nat) (now : String) :
    (∀ v : Variant, st.inTx = false → findVariant st.mem vid = some v → d ≠ 0 →
      (adjustStock vid (some d) reason adminId now st).1.2 =
          Except.ok (max 0 (v.stock_qty + d)) ∧
      findVariant (adjustStock vid (some d) reason adminId now st).1.1.mem vid =
          some { v with stock_qty := max 0 (v.stock_qty + d), updated_at := now } ∧
      (adjustStock vid (some d) reason adminId now st).1.1.mem.adjustments =
          st.mem.adjustments ++
            [⟨st.mem.nextAdjustmentId, vid, d, reason, some adminId, now⟩] ∧
      (adjustStock vid (some d) reason adminId now st).1.1.disk =
          (adjustStock vid (some d) reason adminId now st).1.1.mem ∧
      (adjustStock vid (some d) reason adminId now st).2 =
          [Ev.beginTx, Ev.commitTx, Ev.persistEv]) ∧
    adjustStock vid none reason adminId now st =
      ((st, Except.error (ApiErr.badRequest "Delta quantity is required.")), []) ∧
    adjustStock vid (some 0) reason adminId now st =
      ((st, Except.error (ApiErr.badRequest "Delta quantity is required.")), []) := by
  refine ⟨?_, rfl, rfl⟩
  intro v h0 hv hd
  have hstep : adjustStock vid (some d) reason adminId now st =
      ((⟨(adjustStockBody vid (max 0 (v.stock_qty + d)) d reason adminId now
            st.mem).1,
         (adjustStockBody vid (max 0 (v.stock_qty + d)) d reason adminId now
            st.mem).1, false⟩,
        Except.ok (max 0 (v.stock_qty + d))),
       [Ev.beginTx, Ev.commitTx, Ev.persistEv]) := by
    simp only [adjustStock, hv, if_neg hd]
    rw [runTransaction_commit _ _ h0 rfl]
  rw [hstep]
  refine ⟨rfl, ?_, rfl, rfl, rfl⟩
  show ((st.mem.variants.map fun (w : Variant) =>
      if w.id == vid then
        { w with stock_qty := max 0 (v.stock_qty + d), updated_at := now }
      else w).find? fun w => w.id == vid) = _
  have hv2 : List.find? (fun w => w.id == vid) st.mem.variants = some v := hv
  rw [find?_map_ite st.mem.variants (fun w => w.id == vid)
    (fun w => { w with stock_qty := max 0 (v.stock_qty + d), updated_at := now })
    (fun a ha => ha), hv2]
  rfl

/-- Concrete store for the C1 witness: one variant with stock 10. -/
def vW : Variant :=
  ⟨1, 1, none, "\x7b\x7d", none, 10, true, "t0", "t0"⟩

/-- Adapter state for the C1 witness. -/
def stW : Adapter Db :=
  let db : Db := { Db.empty with variants := [vW] }
  ⟨db, db, false⟩

/-- Witness for C1: adjusting the stock of variant 1 by minus 15 clamps the
quantity to 0 while the raw delta minus 15 is what the handler records. -/
theorem claim_C1_adjust_stock_witness :
    stW.inTx = false ∧ findVariant stW.mem 1 = some vW ∧ (-15 : Int) ≠ 0 ∧
    (adjustStock 1 (some (-15)) "damaged" 9 "t1" stW).1.2 =
      Except.ok (max 0 (vW.stock_qty + (-15))) ∧
    (adjustStock 1 (some (-15)) "damaged" 9 "t1" stW).1.1.mem.adjustments =
      stW.mem.adjustments ++ [⟨stW.mem.nextAdjustmentId, 1, -15, "damaged",
        some 9, "t1"⟩] :=
  ⟨rfl, by decide, by decide,
    ((claim_C1_adjust_stock stW 1 (-15) "damaged" 9 "t1").1 vW rfl (by decide)
      (by decide)).1,
    ((claim_C1_adjust_stock stW 1 (-15) "damaged" 9 "t1").1 vW rfl (by decide)
      (by decide)).2.2.1⟩

example :
    (adjustStock 1 (some (-15)) "damaged" 9 "t1" stW).1.1.mem.variants =
      [{ vW with stock_qty := 0, updated_at := "t1" }] := by
  decide

/-! ### Category deletion (src/server.js, DELETE category handler)

The handler looks up the category, answers 404 when absent, and otherwise
runs two statements: UPDATE products SET category_id = NULL WHERE
category_id = id, then DELETE FROM categories WHERE id = id.  Audit logging
is a swallowed side effect outside the embedded tables. -/

/-- Embedding of the category deletion handler. -/
def deleteCategory (cid : Nat) (db : Db) : Db × Except ApiErr Unit :=
  match db.categories.find? (fun c => c.id == cid) with
  | none => (db, Except.error (ApiErr.notFound "Category not found."))
  | some _ =>
    let db1 := { db with
      products := db.products.map fun (p : Product) =>
        if p.category_id == some cid then { p with category_id := none }
        else p }
    let db2 := { db1 with
      categories := db1.categories.filter fun c => !(c.id == cid) }
    (db2, Except.ok ())

/-- C5: deleting an existing category nulls the category reference of every
referencing product, leaves every other product field and every
non-referencing product untouched, deletes no product row, removes the
category row, and does not touch the other tables. -/
theorem claim_C5_delete_category (db : Db) (cid : Nat) (cat : Category)
    (hc : db.categories.find? (fun c => c.id == cid) = some cat) :
    (deleteCategory cid db).2 = Except.ok () ∧
    (deleteCategory cid db).1.products =
      db.products.map (fun (p : Product) =>
        if p.category_id == some cid then { p with category_id := none }
        else p) ∧
    (deleteCategory cid db).1.products.length = db.products.length ∧
    (∀ p ∈ db.products, p.category_id = some cid →
      ({ p with category_id := none } : Product) ∈ (deleteCategory cid db).1.products) ∧
    (∀ p ∈ db.products, p.category_id ≠ some cid →
      p ∈ (deleteCategory cid db).1.products) ∧
    (deleteCategory cid db).1.categories.find? (fun c => c.id == cid) = none ∧
    (deleteCategory cid db).1.variants = db.variants ∧
    (deleteCategory cid db).1.adjustments = db.adjustments ∧
    (deleteCategory cid db).1.admins = db.admins := by
  have hstep : deleteCategory cid db =
      ({ db with
          products := db.products.map fun (p : Product) =>
            if p.category_id == some cid then { p with category_id := none }
            else p,
          categories := db.categories.filter fun c => !(c.id == cid) },
        Except.ok ()) := by
    unfold deleteCategory
    rw [hc]
  rw [hstep]
  refine ⟨rfl, rfl, List.length_map _ _, ?_, ?_, ?_, rfl, rfl, rfl⟩
  · intro p hp hpc
    refine List.mem_map.mpr ⟨p, hp, ?_⟩
    rw [if_pos (by simp [hpc])]
  · intro p hp hpc
    refine List.mem_map.mpr ⟨p, hp, ?_⟩
    rw [if_neg (by simp [hpc])]
  · refine List.find?_eq_none.mpr ?_
    intro c hcmem
    have h2 := (List.mem_filter.mp hcmem).2
    simp only [Bool.not_eq_eq_eq_not, Bool.not_true] at h2
    simp [h2]

/-- Concrete category for the C5 witness. -/
def catC5 : Category :=
  ⟨3, "Binding", "binding", "", "", "", "", "", 1, true, "t0", "t0"⟩

/-- Concrete store for the C5 witness: category 3 referenced by product 1,
product 2 referencing category 4. -/
def dbC5 : Db :=
  { Db.empty with
    categories := [catC5],
    products :=
      [⟨1, "Spiral Binder", "", "", "/uploads/a.jpg", some 3, "draft", none, none, "t0", "t0"⟩,
       ⟨2, "Clip", "", "", "/uploads/b.jpg", some 4, "draft", none, none, "t0", "t0"⟩] }

/-- Witness for C5: deleting category 3 nulls the reference of product 1,
keeps product 2 intact, and removes the category row. -/
theorem claim_C5_delete_category_witness :
    dbC5.categories.find? (fun c => c.id == 3) = some catC5 ∧
    (deleteCategory 3 dbC5).2 = Except.ok () ∧
    (deleteCategory 3 dbC5).1.products.length = dbC5.products.length ∧
    (deleteCategory 3 dbC5).1.categories.find? (fun c => c.id == 3) = none :=
  ⟨by decide,
    (claim_C5_delete_category dbC5 3 catC5 (by decide)).1,
    (claim_C5_delete_category dbC5 3 catC5 (by decide)).2.2.1,
    (claim_C5_delete_category dbC5 3 catC5 (by decide)).2.2.2.2.2.1⟩

example :
    ((deleteCategory 3 dbC5).1.products.map fun p => p.category_id) =
      [none, some 4] := by
  decide

/-! ### Admin deletion (src/server.js, DELETE admin handler)

The target id arrives as the raw route string req.params.id.  The guard
compares decimal string representations: String(req.admin.id) ===
String(id), where String of a string is the string itself.  The DELETE
then binds this raw string against the INTEGER id column, which SQLite
compares under numeric affinity: a well-formed numeric literal is
converted and compared by value, so the text "03" matches the integer 3,
while a non-numeric text stays TEXT and equals no integer.  The guard and
the DELETE therefore use two different equalities and only the canonical
decimal spelling of the own id is caught by the guard. -/

/-- Decimal digit test on code points. -/
def isDigitChar (c : Char) : Bool :=
  decide (48 ≤ c.toNat ∧ c.toNat ≤ 57)

/-- Value of a list of decimal digits, most significant first. -/
def digitsVal : List Char → Nat → Nat
  | [], acc => acc
  | c :: rest, acc => digitsVal rest (acc * 10 + (c.toNat - 48))

/-- Integer that a bound text parameter matches in the INTEGER id column
under SQLite numeric affinity: some n exactly when the text is a
well-formed numeric literal whose value is the integer n; none when the
text is not numeric (it stays TEXT and equals no integer row) or its
value is not integral (it equals no integer row either).  The embedding
covers an optional minus sign, decimal digits with arbitrary leading
zeros and an optional fractional part; exponent and plus-sign spellings,
also converted by the engine, would only add further matching texts. -/
def sqliteIntOfString (s : String) : Option Int :=
  match s.data with
  | [] => none
  | l =>
    let neg : Bool := match l with
      | '-' :: _ => true
      | _ => false
    let body := match l with
      | '-' :: rest => rest
      | _ => l
    let intPart := body.takeWhile isDigitChar
    let rest := body.dropWhile isDigitChar
    if intPart.isEmpty then none
    else
      let v : Int := Int.ofNat (digitsVal intPart 0)
      let sv : Int := if neg then -v else v
      match rest with
      | [] => some sv
      | '.' :: frac =>
        if frac.all isDigitChar then
          if frac.all (fun c => c == '0') then some sv
          else none
        else none
      | _ => none

/-- Embedding of the admin deletion handler; selfId is the authenticated
admin of the session and targetIdRaw the raw route string.  The guard
rejects on string equality with the decimal representation of selfId; the
DELETE removes every admin row whose id equals the numeric value of the
raw string under numeric affinity, and the handler answers success even
when no row matched. -/
def deleteAdmin (selfId : Nat) (targetIdRaw : String) (db : Db) :
    Db × Except ApiErr Unit :=
  if toString selfId = targetIdRaw then
    (db, Except.error (ApiErr.badRequest "You cannot delete your own account."))
  else
    match sqliteIntOfString targetIdRaw with
    | none => (db, Except.ok ())
    | some n =>
      ({ db with admins := db.admins.filter fun a => !(Int.ofNat a.id == n) },
        Except.ok ())

/-- Store for the C8 counterexample: the authenticated admin is row 3. -/
def dbC8 : Db :=
  { Db.empty with
    admins := [⟨3, "boss@x.com", "h", "Boss", "admin", "t0"⟩],
    nextAdminId := 4 }

/-- Counterexample to C8 as stated: admin 3 requests the deletion of id
"03", the admin account whose id equals their own; the string guard
compares "3" with "03" and passes, and the DELETE matches the integer 3
under numeric affinity, so the request succeeds and removes the
authenticated admin's own row instead of being rejected. -/
theorem claim_C8_counterexample :
    toString (3 : Nat) ≠ "03" ∧
    sqliteIntOfString "03" = some 3 ∧
    (deleteAdmin 3 "03" dbC8).2 = Except.ok () ∧
    (deleteAdmin 3 "03" dbC8).1.admins = [] := by
  refine ⟨by decide, by decide, rfl, by decide⟩

/-- C8 as amended: the self-deletion guard rejects, before any write,
exactly the requests whose raw id string equals the decimal string
representation of the authenticated admin id; any other raw string passes
the guard and the DELETE removes every admin row whose id equals the
numeric-affinity value of the string (no row when the string is not an
integral numeric literal).  Consequently a non-canonical spelling of the
own id, such as "03" for 3, passes the guard and deletes the
authenticated admin's own row: the self-protection invariant holds only
for the canonical decimal spelling. -/
theorem claim_C8_amended_self_delete (db : Db) (selfId : Nat) (raw : String) :
    deleteAdmin selfId (toString selfId) db =
      (db, Except.error (ApiErr.badRequest "You cannot delete your own account.")) ∧
    (toString selfId ≠ raw → sqliteIntOfString raw = none →
      deleteAdmin selfId raw db = (db, Except.ok ())) ∧
    (∀ n : Int, toString selfId ≠ raw → sqliteIntOfString raw = some n →
      deleteAdmin selfId raw db =
        ({ db with admins := db.admins.filter fun a => !(Int.ofNat a.id == n) },
          Except.ok ())) ∧
    (toString selfId ≠ raw → sqliteIntOfString raw = some (Int.ofNat selfId) →
      (deleteAdmin selfId raw db).1.admins.find? (fun a => a.id == selfId) =
        none) := by
  refine ⟨?_, ?_, ?_, ?_⟩
  · unfold deleteAdmin
    rw [if_pos rfl]
  · intro hne hparse
    simp only [deleteAdmin, hparse]
    rw [if_neg hne]
  · intro n hne hparse
    simp only [deleteAdmin, hparse]
    rw [if_neg hne]
  · intro hne hparse
    have heq : deleteAdmin selfId raw db =
        ({ db with admins := db.admins.filter fun a =>
            !(Int.ofNat a.id == Int.ofNat selfId) }, Except.ok ()) := by
      simp only [deleteAdmin, hparse]
      rw [if_neg hne]
    rw [heq]
    refine List.find?_eq_none.mpr ?_
    intro a ha
    have h2 := (List.mem_filter.mp ha).2
    simp only [Bool.not_eq_eq_eq_not, Bool.not_true] at h2
    intro heqid
    have hid : a.id = selfId := by simpa using heqid
    rw [hid] at h2
    simp at h2

/-- Witness for the amended C8: the canonical spelling "3" is rejected
with the store unchanged, while the spelling "03" passes the guard and
removes the row of admin 3. -/
theorem claim_C8_amended_self_delete_witness :
    deleteAdmin 3 (toString (3 : Nat)) dbC8 =
      (dbC8, Except.error (ApiErr.badRequest "You cannot delete your own account.")) ∧
    toString (3 : Nat) ≠ "03" ∧
    sqliteIntOfString "03" = some (Int.ofNat 3) ∧
    (deleteAdmin 3 "03" dbC8).1.admins.find? (fun a => a.id == 3) = none :=
  ⟨(claim_C8_amended_self_delete dbC8 3 "03").1,
    by decide, by decide,
    (claim_C8_amended_self_delete dbC8 3 "03").2.2.2 (by decide) (by decide)⟩

example : sqliteIntOfString "3.0" = some 3 := by decide

example : sqliteIntOfString "3abc" = none := by decide

/-! ### Update handlers (src/server.js, PUT category, PUT product,
PUT variant)

Request payload fields are Option values: none models a field absent from
the JSON or form body; some models a present field.  Where the source
distinguishes a present empty string from an absent field (falsy checks)
the present empty string is kept as some with the empty string.  Numeric
payload fields already coerced with Number are modelled over Int, with a
non-numeric or empty-string input folded into the branch the source sends
it to.  The re-serialization JSON.stringify of safeJsonParse of a stored
blob is abstracted as an explicit function argument. -/

/-- Trim of a string, embedding String.prototype.trim. -/
def jsTrim (s : String) : String :=
  ⟨trimChars s.data⟩

/-- Payload of the category update handler. -/
structure CategoryUpdate where
  name : Option String
  slug : Option String
  description : Option String
  banner_title : Option String
  banner_subtitle : Option String
  banner_cta_text : Option String
  banner_cta_url : Option String
  sort_order : Option Int
  is_active : Option Bool
deriving DecidableEq, Repr

/-- Row produced by the category update: name and slug fall back to the
current row when absent or empty (falsy check), the descriptive fields fall
back only when absent (nullish check), sort_order falls back when absent
(undefined check), while is_active is stored as 0 exactly when the payload
carries an explicit false and as 1 otherwise, including when absent. -/
def updateCategoryRow (now : String) (p : CategoryUpdate) (cur : Category) :
    Category :=
  { cur with
    name := match p.name with
      | some s => if s = "" then cur.name else jsTrim s
      | none => cur.name,
    slug := match p.slug with
      | some s => if s = "" then cur.slug else slugify s
      | none => cur.slug,
    description := (p.description).getD cur.description,
    banner_title := (p.banner_title).getD cur.banner_title,
    banner_subtitle := (p.banner_subtitle).getD cur.banner_subtitle,
    banner_cta_text := (p.banner_cta_text).getD cur.banner_cta_text,
    banner_cta_url := (p.banner_cta_url).getD cur.banner_cta_url,
    sort_order := (p.sort_order).getD cur.sort_order,
    is_active := !(p.is_active == some false),
    updated_at := now }

/-- Embedding of the category update handler (the UNIQUE name and slug
constraints cannot fire in the absent-field scenarios settled here and are
not modelled). -/
def updateCategory (cid : Nat) (p : CategoryUpdate) (now : String) (db : Db) :
    Db × Except ApiErr Unit :=
  match db.categories.find? (fun c => c.id == cid) with
  | none => (db, Except.error (ApiErr.notFound "Category not found."))
  | some cur =>
    ({ db with categories := db.categories.map fun (c : Category) =>
        if c.id == cid then updateCategoryRow now p cur else c },
      Except.ok ())

/-- Variant fields as they appear in create and update payloads. -/
structure VariantInput where
  sku : Option String
  attributes : Option String
  price : Option Int
  stockQty : Option Int
  isActive : Option Bool
deriving DecidableEq, Repr

/-- Variant row inserted by the create paths: sku falls back to NULL when
absent or empty, the attributes object defaults to the empty object, price
to NULL when absent or empty, the stock quantity is Number of the payload
with NaN-or-absent falling back to 0 and every numeric value, negative ones
included, stored as given, and is_active is 0 exactly for an explicit
false.  The serialized attributes object is carried in serialized form. -/
def variantRowOfInput (now : String) (pid : Nat) (vid : Nat)
    (vi : VariantInput) : Variant :=
  { id := vid
    product_id := pid
    sku := match vi.sku with
      | some s => if s = "" then none else some s
      | none => none
    attributes_json := (vi.attributes).getD "\x7b\x7d"
    price := vi.price
    stock_qty := (vi.stockQty).getD 0
    is_active := !(vi.isActive == some false)
    created_at := now
    updated_at := now }

/-- INSERT INTO variants for one input row, advancing the id counter. -/
def insertVariantRow (now : String) (pid : Nat) (vi : VariantInput) (db : Db) :
    Db :=
  { db with
    variants := db.variants ++ [variantRowOfInput now pid db.nextVariantId vi],
    nextVariantId := db.nextVariantId + 1 }

/-- Payload of the product update handler. -/
structure ProductUpdate where
  title : Option String
  shortDesc : Option String
  description : Option String
  categoryId : Option Nat
  status : Option String
  pricing : Option String
  lowStockThreshold : Option Int
  newImage : Option String
  variants : Option (List VariantInput)
deriving DecidableEq, Repr

/-- Row produced by the product update: title, description and status fall
back to the existing row when absent or empty (falsy checks), shortDesc
when absent (undefined check), lowStockThreshold when absent or empty,
pricing when absent or empty, the image when no new file was uploaded,
while category_id is set from the payload when present and truthy and
reset to NULL otherwise, including when the field is absent. -/
def updateProductRow (normPricing : String → String) (now : String)
    (p : ProductUpdate) (cur : Product) : Product :=
  { cur with
    title := match p.title with
      | some t => if t = "" then cur.title else jsTrim t
      | none => cur.title,
    short_desc := match p.shortDesc with
      | some s => jsTrim s
      | none => cur.short_desc,
    description := match p.description with
      | some s => if s = "" then cur.description else jsTrim s
      | none => cur.description,
    image := (p.newImage).getD cur.image,
    category_id := match p.categoryId with
      | some c => some c
      | none => none,
    status := match p.status with
      | some s => if s = "" then cur.status else s
      | none => cur.status,
    low_stock_threshold := match p.lowStockThreshold with
      | some t => some t
      | none => cur.low_stock_threshold,
    pricing_json := match p.pricing with
      | some s => if s = "" then cur.pricing_json else some (normPricing s)
      | none => cur.pricing_json,
    updated_at := now }

/-- Embedding of the product update handler.  When the payload carries a
variants array the handler deletes every variant of the product (which
cascades to their inventory adjustments at the storage level) and inserts
the given list; when the field is absent the variants are untouched.  The
best-effort unlink of a replaced image file lives on the filesystem,
outside the tables embedded here. -/
def updateProduct (normPricing : String → String) (pid : Nat)
    (p : ProductUpdate) (now : String) (db : Db) : Db × Except ApiErr Unit :=
  match db.products.find? (fun q => q.id == pid) with
  | none => (db, Except.error (ApiErr.notFound "Product not found"))
  | some cur =>
    let newRow := updateProductRow normPricing now p cur
    let db1 := { db with products := db.products.map fun (q : Product) =>
      if q.id == pid then newRow else q }
    match p.variants with
    | none => (db1, Except.ok ())
    | some vl =>
      let deadIds := (db1.variants.filter fun v => v.product_id == pid).map
        (fun v => v.id)
      let db2 := { db1 with
        variants := db1.variants.filter fun v => !(v.product_id == pid),
        adjustments := db1.adjustments.filter fun a =>
          !(deadIds.contains a.variant_id) }
      (vl.foldl (fun d vi => insertVariantRow now pid vi d) db2, Except.ok ())

/-- Row produced by the variant update: sku falls back on a nullish check,
price on an undefined-or-empty check, stockQty on an undefined check, the
attributes blob is re-serialized from the stored value when the payload
carries no attributes object, and is_active is 0 exactly for an explicit
false, 1 otherwise, including when absent. -/
def updateVariantRow (normAttrs : String → String) (now : String)
    (p : VariantInput) (cur : Variant) : Variant :=
  { cur with
    sku := match p.sku with
      | some s => some s
      | none => cur.sku,
    attributes_json := match p.attributes with
      | some a => a
      | none => normAttrs cur.attributes_json,
    price := match p.price with
      | some x => some x
      | none => cur.price,
    stock_qty := match p.stockQty with
      | some q => q
      | none => cur.stock_qty,
    is_active := !(p.isActive == some false),
    updated_at := now }

/-- Embedding of the variant update handler. -/
def updateVariant (normAttrs : String → String) (vid : Nat) (p : VariantInput)
    (now : String) (db : Db) : Db × Except ApiErr Unit :=
  match db.variants.find? (fun v => v.id == vid) with
  | none => (db, Except.error (ApiErr.notFound "Variant not found"))
  | some cur =>
    ({ db with variants := db.variants.map fun (v : Variant) =>
        if v.id == vid then updateVariantRow normAttrs now p cur else v },
      Except.ok ())

/-- Lookup after an UPDATE that sets every matched row to one recomputed
row (the row functions recompute every SET column from the looked-up
current row; ids are primary keys, so at most one row matches). -/
theorem find?_map_const {α : Type} (l : List α) (p : α → Bool) (b : α)
    (hb : p b = true) :
    (l.map fun a => if p a then b else a).find? p =
      (l.find? p).map (fun _ => b) := by
  induction l with
  | nil => rfl
  | cons a t ih =>
    cases h : p a with
    | true =>
      simp only [List.map_cons, if_pos h]
      rw [List.find?_cons_of_pos _ hb, List.find?_cons_of_pos _ h]
      rfl
    | false =>
      have hne : ¬ (p a = true) := by rw [h]; exact Bool.false_ne_true
      simp only [List.map_cons, if_neg hne]
      rw [List.find?_cons_of_neg _ hne, List.find?_cons_of_neg _ hne]
      exact ih

/-- Inserting variant rows never changes the products table. -/
theorem foldl_insertVariant_products (now : String) (pid : Nat)
    (vl : List VariantInput) (db : Db) :
    (vl.foldl (fun d vi => insertVariantRow now pid vi d) db).products =
      db.products := by
  induction vl generalizing db with
  | nil => rfl
  | cons a t ih => exact ih (insertVariantRow now pid a db)

/-- All-absent product update payload. -/
def emptyPU : ProductUpdate :=
  ⟨none, none, none, none, none, none, none, none, none⟩

/-- Store for the C3 counterexample: one product referencing category 7. -/
def dbC3 : Db :=
  { Db.empty with
    products :=
      [⟨1, "P", "", "d", "/uploads/a.jpg", some 7, "draft", none, none, "t0", "t0"⟩] }

/-- Counterexample to C3 as stated: a product update whose payload omits
every field, in particular categoryId, resets the stored category
reference from 7 to NULL instead of leaving it unchanged. -/
theorem claim_C3_counterexample :
    ((dbC3.products.find? fun q => q.id == 1).map fun q => q.category_id) =
      some (some 7) ∧
    (((updateProduct (fun s => s) 1 emptyPU "t1" dbC3).1.products.find?
        fun q => q.id == 1).map fun q => q.category_id) = some none := by
  decide

/-- C3 as amended: for the category, product and variant updates every
field absent from the payload keeps its stored value, except that the
category update stores is_active as active unless the payload carries an
explicit false, the product update resets category_id to NULL whenever the
payload carries no truthy categoryId, and the variant update re-serializes
the stored attributes blob and stores is_active as active unless the
payload carries an explicit false; ids and creation times are never
touched, and the recomputed row is what the table stores afterwards. -/
theorem claim_C3_amended_updates :
    (∀ (now : String) (p : CategoryUpdate) (cur : Category),
      (p.name = none → (updateCategoryRow now p cur).name = cur.name) ∧
      (p.slug = none → (updateCategoryRow now p cur).slug = cur.slug) ∧
      (p.description = none →
        (updateCategoryRow now p cur).description = cur.description) ∧
      (p.banner_title = none →
        (updateCategoryRow now p cur).banner_title = cur.banner_title) ∧
      (p.banner_subtitle = none →
        (updateCategoryRow now p cur).banner_subtitle = cur.banner_subtitle) ∧
      (p.banner_cta_text = none →
        (updateCategoryRow now p cur).banner_cta_text = cur.banner_cta_text) ∧
      (p.banner_cta_url = none →
        (updateCategoryRow now p cur).banner_cta_url = cur.banner_cta_url) ∧
      (p.sort_order = none →
        (updateCategoryRow now p cur).sort_order = cur.sort_order) ∧
      (updateCategoryRow now p cur).id = cur.id ∧
      (updateCategoryRow now p cur).created_at = cur.created_at ∧
      (p.is_active = none → (updateCategoryRow now p cur).is_active = true) ∧
      (p.is_active = some false →
        (updateCategoryRow now p cur).is_active = false)) ∧
    (∀ (normPricing : String → String) (now : String) (p : ProductUpdate)
        (cur : Product),
      (p.title = none →
        (updateProductRow normPricing now p cur).title = cur.title) ∧
      (p.shortDesc = none →
        (updateProductRow normPricing now p cur).short_desc = cur.short_desc) ∧
      (p.description = none →
        (updateProductRow normPricing now p cur).description = cur.description) ∧
      (p.newImage = none →
        (updateProductRow normPricing now p cur).image = cur.image) ∧
      (p.status = none →
        (updateProductRow normPricing now p cur).status = cur.status) ∧
      (p.lowStockThreshold = none →
        (updateProductRow normPricing now p cur).low_stock_threshold =
          cur.low_stock_threshold) ∧
      (p.pricing = none →
        (updateProductRow normPricing now p cur).pricing_json =
          cur.pricing_json) ∧
      (updateProductRow normPricing now p cur).id = cur.id ∧
      (updateProductRow normPricing now p cur).created_at = cur.created_at ∧
      (p.categoryId = none →
        (updateProductRow normPricing now p cur).category_id = none) ∧
      (∀ c : Nat, p.categoryId = some c →
        (updateProductRow normPricing now p cur).category_id = some c)) ∧
    (∀ (normAttrs : String → String) (now : String) (p : VariantInput)
        (cur : Variant),
      (p.sku = none → (updateVariantRow normAttrs now p cur).sku = cur.sku) ∧
      (p.price = none →
        (updateVariantRow normAttrs now p cur).price = cur.price) ∧
      (p.stockQty = none →
        (updateVariantRow normAttrs now p cur).stock_qty = cur.stock_qty) ∧
      (updateVariantRow normAttrs now p cur).id = cur.id ∧
      (updateVariantRow normAttrs now p cur).product_id = cur.product_id ∧
      (updateVariantRow normAttrs now p cur).created_at = cur.created_at ∧
      (p.isActive = none →
        (updateVariantRow normAttrs now p cur).is_active = true) ∧
      (p.attributes = none →
        (updateVariantRow normAttrs now p cur).attributes_json =
          normAttrs cur.attributes_json)) ∧
    (∀ (now : String) (p : CategoryUpdate) (db : Db) (cid : Nat)
        (cur : Category),
      db.categories.find? (fun c => c.id == cid) = some cur →
      (updateCategory cid p now db).1.categories.find? (fun c => c.id == cid) =
        some (updateCategoryRow now p cur)) ∧
    (∀ (normPricing : String → String) (now : String) (p : ProductUpdate)
        (db : Db) (pid : Nat) (cur : Product),
      db.products.find? (fun q => q.id == pid) = some cur →
      (updateProduct normPricing pid p now db).1.products.find?
          (fun q => q.id == pid) =
        some (updateProductRow normPricing now p cur)) ∧
    (∀ (normAttrs : String → String) (now : String) (p : VariantInput)
        (db : Db) (vid : Nat) (cur : Variant),
      db.variants.find? (fun v => v.id == vid) = some cur →
      (updateVariant normAttrs vid p now db).1.variants.find?
          (fun v => v.id == vid) =
        some (updateVariantRow normAttrs now p cur)) := by
  refine ⟨?_, ?_, ?_, ?_, ?_, ?_⟩
  · intro now p cur
    refine ⟨?_, ?_, ?_, ?_, ?_, ?_, ?_, ?_, rfl, rfl, ?_, ?_⟩ <;>
      (intro h; simp [updateCategoryRow, h])
  · intro normPricing now p cur
    refine ⟨?_, ?_, ?_, ?_, ?_, ?_, ?_, rfl, rfl, ?_, ?_⟩
    all_goals first
      | (intro c h; simp [updateProductRow, h])
      | (intro h; simp [updateProductRow, h])
  · intro normAttrs now p cur
    refine ⟨?_, ?_, ?_, rfl, rfl, rfl, ?_, ?_⟩ <;>
      (intro h; simp [updateVariantRow, h])
  · intro now p db cid cur hc
    have hid : ((updateCategoryRow now p cur).id == cid) = true := by
      have h1 := List.find?_some hc
      simpa [updateCategoryRow] using h1
    unfold updateCategory
    rw [hc]
    show (db.categories.map fun (c : Category) =>
        if c.id == cid then updateCategoryRow now p cur else c).find?
        (fun c => c.id == cid) = _
    rw [find?_map_const db.categories (fun c => c.id == cid) _ hid, hc]
    rfl
  · intro normPricing now p db pid cur hc
    have hid : ((updateProductRow normPricing now p cur).id == pid) = true := by
      have h1 := List.find?_some hc
      simpa [updateProductRow] using h1
    have hfind : ∀ l : List Product, l = db.products.map (fun (q : Product) =>
        if q.id == pid then updateProductRow normPricing now p cur else q) →
        l.find? (fun q => q.id == pid) =
          some (updateProductRow normPricing now p cur) := by
      intro l hl
      rw [hl, find?_map_const db.products (fun q => q.id == pid) _ hid, hc]
      rfl
    unfold updateProduct
    rw [hc]
    cases hv : p.variants with
    | none => exact hfind _ rfl
    | some vl =>
      show ((vl.foldl (fun d vi => insertVariantRow now pid vi d) _).products).find?
          (fun q => q.id == pid) = _
      rw [foldl_insertVariant_products]
      exact hfind _ rfl
  · intro normAttrs now p db vid cur hc
    have hid : ((updateVariantRow normAttrs now p cur).id == vid) = true := by
      have h1 := List.find?_some hc
      simpa [updateVariantRow] using h1
    unfold updateVariant
    rw [hc]
    show (db.variants.map fun (v : Variant) =>
        if v.id == vid then updateVariantRow normAttrs now p cur else v).find?
        (fun v => v.id == vid) = _
    rw [find?_map_const db.variants (fun v => v.id == vid) _ hid, hc]
    rfl

/-- Witness for the amended C3 at concrete input: updating product 1 of the
counterexample store with the all-absent payload keeps title and image and
nulls the category reference. -/
theorem claim_C3_amended_updates_witness :
    (emptyPU.title = none ∧ emptyPU.categoryId = none) ∧
    ((updateProductRow (fun s => s) "t1" emptyPU
        ⟨1, "P", "", "d", "/uploads/a.jpg", some 7, "draft", none, none,
          "t0", "t0"⟩).title = "P" ∧
      (updateProductRow (fun s => s) "t1" emptyPU
        ⟨1, "P", "", "d", "/uploads/a.jpg", some 7, "draft", none, none,
          "t0", "t0"⟩).category_id = none) :=
  ⟨⟨rfl, rfl⟩,
    (claim_C3_amended_updates.2.1 (fun s => s) "t1" emptyPU
        ⟨1, "P", "", "d", "/uploads/a.jpg", some 7, "draft", none, none,
          "t0", "t0"⟩).1 rfl,
    (claim_C3_amended_updates.2.1 (fun s => s) "t1" emptyPU
        ⟨1, "P", "", "d", "/uploads/a.jpg", some 7, "draft", none, none,
          "t0", "t0"⟩).2.2.2.2.2.2.2.2.2.1 rfl⟩

/-! ### Product deletion (src/server.js, DELETE product handler)

The handler looks the product up, then, when the image column is truthy
and the resolved file exists, calls unlinkSync on it; only afterwards does
it run DELETE FROM products, which cascades to variants and their
inventory_adjustments through the foreign keys of the schema under PRAGMA
foreign_keys ON.  The whole body sits in one try-catch, so an error raised
by unlinkSync reaches the catch before the DELETE statement runs.  The
filesystem is a list of file paths and unlinkFails says whether the
unlinkSync call raises. -/

deriving instance DecidableEq for Except

/-- Database plus the uploads directory of image files. -/
structure Sys where
  db : Db
  files : List String
deriving DecidableEq, Repr

/-- DELETE FROM products WHERE id = pid together with the ON DELETE CASCADE
of variants (by product_id) and of their inventory_adjustments (by
variant_id), as declared in the migrate schema of src/db.js. -/
def cascadeDeleteProduct (pid : Nat) (db : Db) : Db :=
  let deadIds := (db.variants.filter fun v => v.product_id == pid).map
    (fun v => v.id)
  { db with
    products := db.products.filter fun p => !(p.id == pid),
    variants := db.variants.filter fun v => !(v.product_id == pid),
    adjustments := db.adjustments.filter fun a =>
      !(deadIds.contains a.variant_id) }

/-- Embedding of the product deletion handler. -/
def deleteProduct (pid : Nat) (unlinkFails : Bool) (sys : Sys) :
    Sys × Except ApiErr String :=
  match sys.db.products.find? (fun p => p.id == pid) with
  | none => (sys, Except.error (ApiErr.notFound "Product not found"))
  | some product =>
    if product.image != "" && sys.files.contains product.image then
      if unlinkFails then
        (sys, Except.error (ApiErr.serverError "Error deleting product"))
      else
        (⟨cascadeDeleteProduct pid sys.db, sys.files.erase product.image⟩,
          Except.ok "Product deleted")
    else
      ({ sys with db := cascadeDeleteProduct pid sys.db },
        Except.ok "Product deleted")

/-- Store for the C6 counterexample: product 1 owns an image present on
disk, one variant and one adjustment. -/
def sysC6 : Sys :=
  ⟨{ Db.empty with
      products :=
        [⟨1, "P", "", "d", "/uploads/a.jpg", none, "draft", none, none,
          "t0", "t0"⟩],
      variants := [⟨4, 1, some "SB-1", "\x7b\x7d", none, 10, true, "t0", "t0"⟩],
      adjustments := [⟨2, 4, -1, "", none, "t0"⟩] },
    ["/uploads/a.jpg"]⟩

/-- Counterexample to C6 as stated: when unlinkSync raises while deleting
the owned image, the handler aborts with an error and the product row is
still there, so the image-file failure did abort the row deletion. -/
theorem claim_C6_counterexample :
    (deleteProduct 1 true sysC6).2 =
      Except.error (ApiErr.serverError "Error deleting product") ∧
    (deleteProduct 1 true sysC6).1.db.products.find? (fun p => p.id == 1) =
      some ⟨1, "P", "", "d", "/uploads/a.jpg", none, "draft", none, none,
        "t0", "t0"⟩ ∧
    (deleteProduct 1 true sysC6).1 = sysC6 := by
  refine ⟨rfl, by decide, rfl⟩

/-- C6 as amended: deleting an existing product unlinks its owned image
when the image path is set and the file exists; if that unlink raises, the
handler aborts with an error and deletes nothing, while in every other
case, a missing or unset image file included, the product row is deleted
and the deletion cascades to the product variants and their inventory
adjustments, leaving every other product in place. -/
theorem claim_C6_amended_delete_product (sys : Sys) (pid : Nat)
    (product : Product)
    (hp : sys.db.products.find? (fun p => p.id == pid) = some product) :
    ((product.image != "" && sys.files.contains product.image) = false →
      ∀ unlinkFails : Bool,
        deleteProduct pid unlinkFails sys =
          ({ sys with db := cascadeDeleteProduct pid sys.db },
            Except.ok "Product deleted")) ∧
    ((product.image != "" && sys.files.contains product.image) = true →
      deleteProduct pid false sys =
        (⟨cascadeDeleteProduct pid sys.db, sys.files.erase product.image⟩,
          Except.ok "Product deleted")) ∧
    ((product.image != "" && sys.files.contains product.image) = true →
      deleteProduct pid true sys =
        (sys, Except.error (ApiErr.serverError "Error deleting product"))) ∧
    (cascadeDeleteProduct pid sys.db).products.find? (fun p => p.id == pid) =
      none ∧
    (∀ p ∈ sys.db.products, p.id ≠ pid →
      p ∈ (cascadeDeleteProduct pid sys.db).products) ∧
    (∀ v ∈ (cascadeDeleteProduct pid sys.db).variants, v.product_id ≠ pid) ∧
    (∀ a ∈ (cascadeDeleteProduct pid sys.db).adjustments,
      ∀ v ∈ sys.db.variants, v.product_id = pid → a.variant_id ≠ v.id) := by
  refine ⟨?_, ?_, ?_, ?_, ?_, ?_, ?_⟩
  · intro hcond unlinkFails
    simp only [deleteProduct, hp]
    rw [if_neg (by rw [hcond]; exact Bool.false_ne_true)]
  · intro hcond
    simp only [deleteProduct, hp]
    rw [if_pos hcond, if_neg Bool.false_ne_true]
  · intro hcond
    simp only [deleteProduct, hp]
    rw [if_pos hcond, if_pos trivial]
  · refine List.find?_eq_none.mpr ?_
    intro p hpm
    have h2 := (List.mem_filter.mp hpm).2
    simp only [Bool.not_eq_eq_eq_not, Bool.not_true] at h2
    simp [h2]
  · intro p hpm hne
    exact List.mem_filter.mpr ⟨hpm, by simp [hne]⟩
  · intro v hv
    have h2 := (List.mem_filter.mp hv).2
    simp only [Bool.not_eq_eq_eq_not, Bool.not_true] at h2
    simp at h2
    exact h2
  · intro a ha v hv hvp
    have h2 := (List.mem_filter.mp ha).2
    simp only [Bool.not_eq_eq_eq_not, Bool.not_true] at h2
    intro hav
    have hmem : v.id ∈ ((sys.db.variants.filter fun w => w.product_id == pid).map
        (fun w => w.id)) :=
      List.mem_map.mpr ⟨v, List.mem_filter.mpr ⟨hv, by simp [hvp]⟩, rfl⟩
    rw [← hav] at hmem
    rw [List.contains_eq_any_beq] at h2
    have : sys.db.adjustments.filter (fun x =>
        !(((sys.db.variants.filter fun w => w.product_id == pid).map
          (fun w => w.id)).contains x.variant_id)) =
        (cascadeDeleteProduct pid sys.db).adjustments := rfl
    have h3 : ((List.map (fun w => w.id)
        (List.filter (fun w => w.product_id == pid) sys.db.variants)).any
        fun x => a.variant_id == x) = false := h2
    have h4 := List.any_eq_true.not.mp (by rw [h3]; exact Bool.false_ne_true)
    push_neg at h4
    exact absurd (by simp : (a.variant_id == a.variant_id) = true)
      (by simpa using h4 a.variant_id hmem)

/-- Witness for the amended C6: deleting product 1 of the counterexample
store with a working unlink removes the row, the variant, the adjustment
and the file. -/
theorem claim_C6_amended_delete_product_witness :
    sysC6.db.products.find? (fun p => p.id == 1) =
      some ⟨1, "P", "", "d", "/uploads/a.jpg", none, "draft", none, none,
        "t0", "t0"⟩ ∧
    (("/uploads/a.jpg" != "" && sysC6.files.contains "/uploads/a.jpg") = true) ∧
    deleteProduct 1 false sysC6 =
      (⟨cascadeDeleteProduct 1 sysC6.db, sysC6.files.erase "/uploads/a.jpg"⟩,
        Except.ok "Product deleted") ∧
    (cascadeDeleteProduct 1 sysC6.db).products.find? (fun p => p.id == 1) =
      none :=
  ⟨by decide, by decide,
    (claim_C6_amended_delete_product sysC6 1
      ⟨1, "P", "", "d", "/uploads/a.jpg", none, "draft", none, none,
        "t0", "t0"⟩ (by decide)).2.1 (by decide),
    (claim_C6_amended_delete_product sysC6 1
      ⟨1, "P", "", "d", "/uploads/a.jpg", none, "draft", none, none,
        "t0", "t0"⟩ (by decide)).2.2.2.1⟩

example :
    (deleteProduct 1 false sysC6).1 =
      ⟨{ Db.empty with
          products := [], variants := [], adjustments := [] }, []⟩ := by
  decide

/-! ### Bootstrap admin upsert (src/server.js, ensureBootstrapAdmin)

The function receives externally supplied credentials (environment or seed
file), hashes the password (the hashing primitive is outside the core, so
the hash arrives here as an opaque string), looks the admin up by email,
and either updates password hash, display name and role of the found row
in place or inserts a fresh row.  The source guards the update branch with
the truthiness of the found id, which for AUTOINCREMENT keys is never 0. -/

/-- Number of admin rows carrying the given email. -/
def countEmail (db : Db) (email : String) : Nat :=
  (db.admins.filter fun a => a.email == email).length

/-- Embedding of ensureBootstrapAdmin. -/
def ensureBootstrapAdmin (email hash name now : String) (db : Db) : Db :=
  match db.admins.find? (fun a => a.email == email) with
  | some existing =>
    if existing.id ≠ 0 then
      { db with admins := db.admins.map fun (a : Admin) =>
          if a.id == existing.id then
            { a with password_hash := hash, name := name, role := "admin" }
          else a }
    else
      { db with
        admins := db.admins ++ [⟨db.nextAdminId, email, hash, name, "admin", now⟩],
        nextAdminId := db.nextAdminId + 1 }
  | none =>
    { db with
      admins := db.admins ++ [⟨db.nextAdminId, email, hash, name, "admin", now⟩],
      nextAdminId := db.nextAdminId + 1 }

/-- Filtering after a map that does not move rows across the predicate
keeps the number of matching rows. -/
theorem length_filter_map_eq {α : Type} (l : List α) (f : α → α)
    (p : α → Bool) (hf : ∀ a, p (f a) = p a) :
    ((l.map f).filter p).length = (l.filter p).length := by
  induction l with
  | nil => rfl
  | cons a t ih =>
    simp only [List.map_cons, List.filter_cons, hf a]
    cases h : p a <;> simp [ih]

/-- Core counting fact for the upsert: one run leaves exactly one row with
the given email. -/
theorem countEmail_upsert (email hash name now : String) (db : Db)
    (h1 : countEmail db email ≤ 1) (h0 : ∀ a ∈ db.admins, a.id ≠ 0) :
    countEmail (ensureBootstrapAdmin email hash name now db) email = 1 := by
  cases hfind : db.admins.find? (fun a => a.email == email) with
  | none =>
    have hz : db.admins.filter (fun a => a.email == email) = [] := by
      rw [List.filter_eq_nil_iff]
      intro a ha
      have := List.find?_eq_none.mp hfind a ha
      simpa using this
    simp only [ensureBootstrapAdmin, hfind, countEmail, List.filter_append, hz]
    simp
  | some ex =>
    have hmem : ex ∈ db.admins := List.mem_of_find?_eq_some hfind
    have hex := List.find?_some hfind
    simp only [ensureBootstrapAdmin, hfind]
    rw [if_pos (h0 ex hmem)]
    have hcnt : countEmail { db with admins := db.admins.map fun (a : Admin) =>
        if a.id == ex.id then
          { a with password_hash := hash, name := name, role := "admin" }
        else a } email = countEmail db email := by
      unfold countEmail
      refine length_filter_map_eq db.admins _ _ ?_
      intro a
      cases h : (a.id == ex.id) <;> simp [h]
    rw [hcnt]
    have hge : 1 ≤ countEmail db email := by
      have : ex ∈ db.admins.filter (fun a => a.email == email) :=
        List.mem_filter.mpr ⟨hmem, hex⟩
      have hne : db.admins.filter (fun a => a.email == email) ≠ [] := by
        intro hnil
        rw [hnil] at this
        exact absurd this (List.not_mem_nil ex)
      unfold countEmail
      exact Nat.succ_le_of_lt (List.length_pos.mpr hne)
    omega

/-- One upsert run keeps the id side conditions needed by later runs. -/
theorem ensureBootstrapAdmin_preserves (email hash name now : String)
    (db : Db) (h0 : ∀ a ∈ db.admins, a.id ≠ 0) (hn : db.nextAdminId ≠ 0) :
    (∀ a ∈ (ensureBootstrapAdmin email hash name now db).admins, a.id ≠ 0) ∧
    (ensureBootstrapAdmin email hash name now db).nextAdminId ≠ 0 := by
  cases hfind : db.admins.find? (fun a => a.email == email) with
  | none =>
    simp only [ensureBootstrapAdmin, hfind]
    refine ⟨?_, Nat.succ_ne_zero _⟩
    intro a ha
    rcases List.mem_append.mp ha with h | h
    · exact h0 a h
    · rcases List.mem_singleton.mp h with rfl
      exact hn
  | some ex =>
    simp only [ensureBootstrapAdmin, hfind]
    rw [if_pos (h0 ex (List.mem_of_find?_eq_some hfind))]
    refine ⟨?_, hn⟩
    intro a ha
    rcases List.mem_map.mp ha with ⟨b, hb, rfl⟩
    cases h : (b.id == ex.id) <;> simp [h] <;> exact h0 b hb

/-- C9: the bootstrap upsert inserts a fresh admin row when the email is
unknown and otherwise rewrites password hash, name and role of the found
row in place, keeping its id, email and creation time; starting from a
store with at most one row per email (the UNIQUE email constraint) one run
leaves exactly one row with that email, and iterating the upsert any
positive number of times still leaves exactly one, never a duplicate. -/
theorem claim_C9_bootstrap_upsert (email hash name now : String) (db : Db) :
    (db.admins.find? (fun a => a.email == email) = none →
      ensureBootstrapAdmin email hash name now db =
        { db with
          admins := db.admins ++
            [⟨db.nextAdminId, email, hash, name, "admin", now⟩],
          nextAdminId := db.nextAdminId + 1 }) ∧
    (∀ ex : Admin, db.admins.find? (fun a => a.email == email) = some ex →
      ex.id ≠ 0 →
      ensureBootstrapAdmin email hash name now db =
        { db with admins := db.admins.map fun (a : Admin) =>
            if a.id == ex.id then
              { a with password_hash := hash, name := name, role := "admin" }
            else a } ∧
      (ensureBootstrapAdmin email hash name now db).admins.length =
        db.admins.length) ∧
    (countEmail db email ≤ 1 → (∀ a ∈ db.admins, a.id ≠ 0) →
      countEmail (ensureBootstrapAdmin email hash name now db) email = 1) ∧
    (countEmail db email ≤ 1 → (∀ a ∈ db.admins, a.id ≠ 0) →
      db.nextAdminId ≠ 0 → ∀ n : Nat,
      countEmail ((ensureBootstrapAdmin email hash name now)^[n + 1] db)
        email = 1) := by
  refine ⟨?_, ?_, ?_, ?_⟩
  · intro hfind
    simp only [ensureBootstrapAdmin, hfind]
  · intro ex hfind hid
    have heq : ensureBootstrapAdmin email hash name now db =
        { db with admins := db.admins.map fun (a : Admin) =>
            if a.id == ex.id then
              { a with password_hash := hash, name := name, role := "admin" }
            else a } := by
      simp only [ensureBootstrapAdmin, hfind]
      rw [if_pos hid]
    refine ⟨heq, ?_⟩
    rw [heq]
    exact List.length_map _ _
  · exact countEmail_upsert email hash name now db
  · intro h1 h0 hn n
    induction n with
    | zero => exact countEmail_upsert email hash name now db h1 h0
    | succ m ih =>
      have hinv : (∀ a ∈ ((ensureBootstrapAdmin email hash name now)^[m + 1]
            db).admins, a.id ≠ 0) ∧
          ((ensureBootstrapAdmin email hash name now)^[m + 1] db).nextAdminId ≠ 0 := by
        clear ih
        induction m with
        | zero =>
          simpa using ensureBootstrapAdmin_preserves email hash name now db h0 hn
        | succ k ihk =>
          rw [Function.iterate_succ_apply']
          exact ensureBootstrapAdmin_preserves email hash name now _ ihk.1 ihk.2
      rw [Function.iterate_succ_apply']
      exact countEmail_upsert email hash name now _ (by rw [ih]) hinv.1

/-- Concrete store for the C9 witness: one admin with the target email. -/
def dbC9 : Db :=
  { Db.empty with
    admins := [⟨2, "boss@x.com", "oldhash", "Old", "admin", "t0"⟩],
    nextAdminId := 3 }

/-- Witness for C9: upserting an existing email rewrites the row in place
and twice-iterated upserts still leave exactly one row with the email. -/
theorem claim_C9_bootstrap_upsert_witness :
    dbC9.admins.find? (fun a => a.email == "boss@x.com") =
      some ⟨2, "boss@x.com", "oldhash", "Old", "admin", "t0"⟩ ∧
    countEmail dbC9 "boss@x.com" ≤ 1 ∧
    (ensureBootstrapAdmin "boss@x.com" "newhash" "New" "t1" dbC9).admins.length =
      dbC9.admins.length ∧
    countEmail (ensureBootstrapAdmin "boss@x.com" "newhash" "New" "t1" dbC9)
      "boss@x.com" = 1 ∧
    countEmail ((ensureBootstrapAdmin "boss@x.com" "newhash" "New" "t1")^[2]
      dbC9) "boss@x.com" = 1 :=
  ⟨by decide, by decide,
    ((claim_C9_bootstrap_upsert "boss@x.com" "newhash" "New" "t1" dbC9).2.1
      ⟨2, "boss@x.com", "oldhash", "Old", "admin", "t0"⟩ (by decide)
      (by decide)).2,
    (claim_C9_bootstrap_upsert "boss@x.com" "newhash" "New" "t1" dbC9).2.2.1
      (by decide) (by decide),
    (claim_C9_bootstrap_upsert "boss@x.com" "newhash" "New" "t1" dbC9).2.2.2
      (by decide) (by decide) (by decide) 1⟩

example :
    (ensureBootstrapAdmin "boss@x.com" "newhash" "New" "t1" dbC9).admins =
      [⟨2, "boss@x.com", "newhash", "New", "admin", "t0"⟩] := by
  decide

/-! ### Variant creation (src/server.js, POST variants and the nested
inserts of POST products)

The create paths never clamp the requested stock quantity: the stored
value is Number of the payload (with NaN and absence falling back to 0),
so a negative request is stored negative.  Clamping happens only in the
adjust-stock handler. -/

/-- Embedding of the standalone variant creation handler (the sku UNIQUE
and product_id foreign-key constraints are orthogonal to the stored
quantity and not modelled). -/
def createVariant (now : String) (productId : Option Nat) (vi : VariantInput)
    (db : Db) : Db × Except ApiErr Nat :=
  match productId with
  | none => (db, Except.error (ApiErr.badRequest "Product ID is required."))
  | some pid => (insertVariantRow now pid vi db, Except.ok db.nextVariantId)

/-- Payload of the product creation handler. -/
structure ProductCreate where
  title : String
  shortDesc : Option String
  description : String
  imageFile : Option String
  categoryId : Option Nat
  status : Option String
  pricing : Option String
  lowStockThreshold : Option Int
  variants : List VariantInput
deriving DecidableEq, Repr

/-- Embedding of the product creation handler: after validating title,
description and the uploaded image it inserts the product row and then
each nested variant row inside one transaction. -/
def createProduct (normPricing : String → String) (now : String)
    (p : ProductCreate) (db : Db) : Db × Except ApiErr Nat :=
  if p.title = "" ∨ p.description = "" then
    (db, Except.error (ApiErr.badRequest "Title and description are required"))
  else
    match p.imageFile with
    | none => (db, Except.error (ApiErr.badRequest "Product image is required"))
    | some f =>
      let row : Product :=
        { id := db.nextProductId
          title := jsTrim p.title
          short_desc := jsTrim ((p.shortDesc).getD "")
          description := jsTrim p.description
          image := "/uploads/" ++ f
          category_id := p.categoryId
          status := match p.status with
            | some s => if s = "" then "draft" else s
            | none => "draft"
          low_stock_threshold := p.lowStockThreshold
          pricing_json := match p.pricing with
            | some s => if s = "" then none else some (normPricing s)
            | none => none
          created_at := now
          updated_at := now }
      let db1 :=
        { db with
          products := db.products ++ [row],
          nextProductId := db.nextProductId + 1 }
      (p.variants.foldl (fun d vi => insertVariantRow now row.id vi d) db1,
        Except.ok row.id)

/-- C10: variant creation, variant update and the nested inserts of
product creation store the requested stock quantity as given, without any
clamp at zero, so a negative request such as minus 5 is stored negative;
the clamp max 0 applies only in the adjust-stock path. -/
theorem claim_C10_no_clamp_on_writes :
    (∀ (now : String) (pid : Nat) (vi : VariantInput) (db : Db) (q : Int),
      vi.stockQty = some q →
      (createVariant now (some pid) vi db).2 = Except.ok db.nextVariantId ∧
      (createVariant now (some pid) vi db).1.variants =
        db.variants ++ [variantRowOfInput now pid db.nextVariantId vi] ∧
      (variantRowOfInput now pid db.nextVariantId vi).stock_qty = q) ∧
    (∀ (normAttrs : String → String) (now : String) (p : VariantInput)
        (cur : Variant) (q : Int), p.stockQty = some q →
      (updateVariantRow normAttrs now p cur).stock_qty = q) ∧
    (∀ (normPricing : String → String) (now : String) (pc : ProductCreate)
        (db : Db) (f : String) (vi : VariantInput) (q : Int),
      pc.title ≠ "" → pc.description ≠ "" → pc.imageFile = some f →
      pc.variants = [vi] → vi.stockQty = some q →
      (createProduct normPricing now pc db).1.variants =
        db.variants ++
          [variantRowOfInput now db.nextProductId db.nextVariantId vi] ∧
      (variantRowOfInput now db.nextProductId db.nextVariantId vi).stock_qty =
        q) ∧
    (variantRowOfInput "t1" 1 1 ⟨none, none, none, some (-5), none⟩).stock_qty =
      -5 := by
  refine ⟨?_, ?_, ?_, rfl⟩
  · intro now pid vi db q hq
    refine ⟨rfl, rfl, ?_⟩
    simp [variantRowOfInput, hq]
  · intro normAttrs now p cur q hq
    simp [updateVariantRow, hq]
  · intro normPricing now pc db f vi q ht hd himg hvl hq
    constructor
    · simp only [createProduct, himg, hvl]
      rw [if_neg (by push_neg; exact ⟨ht, hd⟩)]
      rfl
    · simp [variantRowOfInput, hq]

/-- Witness for C10: creating a variant with requested stock minus 5 on
the empty store stores minus 5. -/
theorem claim_C10_no_clamp_on_writes_witness :
    (⟨none, none, none, some (-5), none⟩ : VariantInput).stockQty =
      some (-5) ∧
    (createVariant "t1" (some 1) ⟨none, none, none, some (-5), none⟩
        Db.empty).1.variants =
      Db.empty.variants ++
        [variantRowOfInput "t1" 1 Db.empty.nextVariantId
          ⟨none, none, none, some (-5), none⟩] ∧
    (variantRowOfInput "t1" 1 Db.empty.nextVariantId
        ⟨none, none, none, some (-5), none⟩).stock_qty = -5 :=
  ⟨rfl,
    (claim_C10_no_clamp_on_writes.1 "t1" 1 ⟨none, none, none, some (-5), none⟩
      Db.empty (-5) rfl).2.1,
    (claim_C10_no_clamp_on_writes.1 "t1" 1 ⟨none, none, none, some (-5), none⟩
      Db.empty (-5) rfl).2.2⟩

example :
    ((createVariant "t1" (some 1) ⟨none, none, none, some (-5), none⟩
        Db.empty).1.variants.map fun v => v.stock_qty) = [-5] := by
  decide

/-! ### JSON import (src/server.js, POST import, JSON branch)

The handler parses the uploaded document, then inside one db.transaction
remaps categories by slug (reusing an existing category instead of
inserting a duplicate), inserts products with the category reference
resolved through the category id map, and inserts variants with the
product reference resolved through the product id map, dropping a variant
whose reference cannot be resolved.  Empty or absent strings are modelled
as the empty string for the falsy-checked name, slug and title fields.
The UNIQUE constraints on category name and variant sku from the migrate
schema are modelled as checks that raise, so that the transaction body can
fail and roll back. -/

/-- Association of source-system ids to destination ids (the Map objects
of the handler); set prepends, so the latest binding wins on lookup. -/
def lookupMap (m : List (Nat × Nat)) (k : Nat) : Option Nat :=
  (m.find? (fun e => e.1 == k)).map (fun e => e.2)

/-- Category row of the import payload. -/
structure CategoryImport where
  id : Nat
  name : String
  slug : String
  description : Option String
  banner_title : Option String
  banner_subtitle : Option String
  banner_cta_text : Option String
  banner_cta_url : Option String
  sort_order : Option Int
  is_active : Option Int
deriving DecidableEq, Repr

/-- Category row inserted by the import, following the INSERT of the
handler: optional strings default to empty, sort_order is Number with a
falsy fallback to 0, is_active stores 0 only for the explicit 0. -/
def categoryRowOfImport (now : String) (newId : Nat) (cat : CategoryImport) :
    Category :=
  { id := newId
    name := cat.name
    slug := cat.slug
    description := (cat.description).getD ""
    banner_title := (cat.banner_title).getD ""
    banner_subtitle := (cat.banner_subtitle).getD ""
    banner_cta_text := (cat.banner_cta_text).getD ""
    banner_cta_url := (cat.banner_cta_url).getD ""
    sort_order := (cat.sort_order).getD 0
    is_active := !(cat.is_active == some 0)
    created_at := now
    updated_at := now }

/-- One step of the category phase over the running database and the
category id map. -/
def categoryImportStep (now : String) (cat : CategoryImport)
    (st : Db × List (Nat × Nat)) : (Db × List (Nat × Nat)) × Option ApiErr :=
  if cat.name = "" ∨ cat.slug = "" then (st, none)
  else
    match st.1.categories.find? (fun c => c.slug == cat.slug) with
    | some existing => ((st.1, (cat.id, existing.id) :: st.2), none)
    | none =>
      if (st.1.categories.find? (fun c => c.name == cat.name)).isSome then
        (st, some (ApiErr.badRequest "UNIQUE constraint failed: categories.name"))
      else
        (({ st.1 with
            categories := st.1.categories ++
              [categoryRowOfImport now st.1.nextCategoryId cat],
            nextCategoryId := st.1.nextCategoryId + 1 },
          (cat.id, st.1.nextCategoryId) :: st.2), none)

/-- Product row of the import payload. -/
structure ProductImport where
  id : Nat
  title : String
  short_desc : Option String
  description : Option String
  image : Option String
  category_id : Option Nat
  status : Option String
  low_stock_threshold : Option Int
  pricing_json : Option String
deriving DecidableEq, Repr

/-- Product row inserted by the import: the category reference is resolved
through the category id map and falls back to NULL when the source
reference is absent, falsy or unmapped; status falls back to draft,
low_stock_threshold and pricing_json to NULL on falsy values. -/
def productRowOfImport (now : String) (cmap : List (Nat × Nat)) (newId : Nat)
    (prod : ProductImport) : Product :=
  { id := newId
    title := prod.title
    short_desc := (prod.short_desc).getD ""
    description := (prod.description).getD ""
    image := (prod.image).getD ""
    category_id := match prod.category_id with
      | some cid => lookupMap cmap cid
      | none => none
    status := match prod.status with
      | some s => if s = "" then "draft" else s
      | none => "draft"
    low_stock_threshold := match prod.low_stock_threshold with
      | some t => if t = 0 then none else some t
      | none => none
    pricing_json := match prod.pricing_json with
      | some s => if s = "" then none else some s
      | none => none
    created_at := now
    updated_at := now }

/-- One step of the product phase over the running database and the
product id map, with the category id map fixed by the finished category
phase. -/
def productImportStep (now : String) (cmap : List (Nat × Nat))
    (prod : ProductImport) (st : Db × List (Nat × Nat)) :
    (Db × List (Nat × Nat)) × Option ApiErr :=
  if prod.title = "" then (st, none)
  else
    (({ st.1 with
        products := st.1.products ++
          [productRowOfImport now cmap st.1.nextProductId prod],
        nextProductId := st.1.nextProductId + 1 },
      (prod.id, st.1.nextProductId) :: st.2), none)

/-- Variant row of the import payload. -/
structure VariantImport where
  product_id : Nat
  sku : Option String
  attributes_json : Option String
  attributes : Option String
  price : Option Int
  stock_qty : Option Int
  is_active : Option Int
deriving DecidableEq, Repr

/-- Variant row inserted by the import: sku falls back to NULL on falsy
values, the attributes blob falls back to the serialized attributes object
and then to the empty object, the stock quantity is Number with falsy
fallback 0, is_active stores 0 only for the explicit 0. -/
def variantRowOfImport (now : String) (newPid : Nat) (vid : Nat)
    (vr : VariantImport) : Variant :=
  { id := vid
    product_id := newPid
    sku := match vr.sku with
      | some s => if s = "" then none else some s
      | none => none
    attributes_json := match vr.attributes_json with
      | some s => if s = "" then (vr.attributes).getD "\x7b\x7d" else s
      | none => (vr.attributes).getD "\x7b\x7d"
    price := vr.price
    stock_qty := (vr.stock_qty).getD 0
    is_active := !(vr.is_active == some 0)
    created_at := now
    updated_at := now }

/-- One step of the variant phase: a variant whose product reference is
not in the product id map is dropped without an error; an sku collision
with a stored variant raises the UNIQUE constraint. -/
def variantImportStep (now : String) (pmap : List (Nat × Nat))
    (vr : VariantImport) (db : Db) : Db × Option ApiErr :=
  match lookupMap pmap vr.product_id with
  | none => (db, none)
  | some newPid =>
    let row := variantRowOfImport now newPid db.nextVariantId vr
    let skuConflict : Bool := match row.sku with
      | some s => (db.variants.find? (fun v => v.sku == some s)).isSome
      | none => false
    if skuConflict then
      (db, some (ApiErr.badRequest "UNIQUE constraint failed: variants.sku"))
    else
      ({ db with
          variants := db.variants ++ [row],
          nextVariantId := db.nextVariantId + 1 }, none)

/-- Parsed JSON import document. -/
structure ImportPayload where
  categories : List CategoryImport
  products : List ProductImport
  variants : List VariantImport
deriving DecidableEq, Repr

/-- Transaction body of the JSON import: the three phases in order, with
the first raised error aborting the rest. -/
def jsonImportBody (now : String) (payload : ImportPayload) (db : Db) :
    Db × Option ApiErr :=
  match foldStep (categoryImportStep now) payload.categories (db, []) with
  | ((db1, _), some e) => (db1, some e)
  | ((db1, cmap), none) =>
    match foldStep (productImportStep now cmap) payload.products (db1, []) with
    | ((db2, _), some e) => (db2, some e)
    | ((db2, pmap), none) =>
      foldStep (variantImportStep now pmap) payload.variants db2

/-- Embedding of the JSON import endpoint: the whole body runs inside one
transaction wrapper of the adapter. -/
def jsonImport (now : String) (payload : ImportPayload) (st : Adapter Db) :
    (Adapter Db × Except ApiErr Unit) × List Ev :=
  match runTransaction (jsonImportBody now payload) st with
  | (st', none, evs) => ((st', Except.ok ()), evs)
  | (st', some e, evs) => ((st', Except.error e), evs)

/-- Destination store for the C4 counterexample: slug binding already
exists as category 5. -/
def dbC4 : Db :=
  { Db.empty with
    categories := [⟨5, "Binding", "binding", "", "", "", "", "", 1, true,
      "t0", "t0"⟩],
    nextCategoryId := 6 }

/-- Import payload for the C4 counterexample: a category carrying the
existing slug but no name, and a product referencing that category. -/
def payloadC4 : ImportPayload :=
  ⟨[⟨1, "", "binding", none, none, none, none, none, none, none⟩],
   [⟨10, "P", none, none, none, some 1, none, none, none⟩],
   []⟩

/-- Counterexample to C4 as stated: the imported category carries the slug
of existing category 5, so per the claim its import id 1 is mapped to 5
and the imported product referencing 1 resolves to 5; the handler instead
skips nameless categories before recording any mapping, and the product
lands with a NULL category reference. -/
theorem claim_C4_counterexample :
    (jsonImport "t1" payloadC4 ⟨dbC4, dbC4, false⟩).1.2 = Except.ok () ∧
    ((jsonImport "t1" payloadC4 ⟨dbC4, dbC4, false⟩).1.1.mem.products.map
      fun p => p.category_id) = [none] := by
  refine ⟨rfl, by decide⟩

/-- C4 as amended: for categories carrying a name and a slug the import
maps a slug already present to the existing row id without inserting and
otherwise inserts once and maps the fresh id; a product carrying a title
is inserted with its category reference resolved through the category map
(NULL when unmapped) and its import id mapped to the fresh product id; a
variant whose product reference is not in the product map is dropped
silently; categories without a name or slug and products without a title
are skipped without mapping; and the whole import runs as one transaction
that commits and persists everything on success and leaves memory and
disk untouched when the body raises. -/
theorem claim_C4_amended_json_import :
    (∀ (now : String) (cat : CategoryImport) (db : Db)
        (cmap : List (Nat × Nat)) (ex : Category),
      cat.name ≠ "" → cat.slug ≠ "" →
      db.categories.find? (fun c => c.slug == cat.slug) = some ex →
      categoryImportStep now cat (db, cmap) =
        ((db, (cat.id, ex.id) :: cmap), none)) ∧
    (∀ (now : String) (cat : CategoryImport) (db : Db)
        (cmap : List (Nat × Nat)),
      cat.name ≠ "" → cat.slug ≠ "" →
      db.categories.find? (fun c => c.slug == cat.slug) = none →
      db.categories.find? (fun c => c.name == cat.name) = none →
      categoryImportStep now cat (db, cmap) =
        (({ db with
            categories := db.categories ++
              [categoryRowOfImport now db.nextCategoryId cat],
            nextCategoryId := db.nextCategoryId + 1 },
          (cat.id, db.nextCategoryId) :: cmap), none)) ∧
    (∀ (now : String) (cat : CategoryImport) (db : Db)
        (cmap : List (Nat × Nat)),
      cat.name = "" ∨ cat.slug = "" →
      categoryImportStep now cat (db, cmap) = ((db, cmap), none)) ∧
    (∀ (now : String) (cmap : List (Nat × Nat)) (prod : ProductImport)
        (db : Db) (pmap : List (Nat × Nat)),
      prod.title ≠ "" →
      productImportStep now cmap prod (db, pmap) =
        (({ db with
            products := db.products ++
              [productRowOfImport now cmap db.nextProductId prod],
            nextProductId := db.nextProductId + 1 },
          (prod.id, db.nextProductId) :: pmap), none) ∧
      (productRowOfImport now cmap db.nextProductId prod).category_id =
        (prod.category_id).bind (fun cid => lookupMap cmap cid)) ∧
    (∀ (now : String) (cmap : List (Nat × Nat)) (prod : ProductImport)
        (db : Db) (pmap : List (Nat × Nat)),
      prod.title = "" →
      productImportStep now cmap prod (db, pmap) = ((db, pmap), none)) ∧
    (∀ (now : String) (pmap : List (Nat × Nat)) (vr : VariantImport)
        (db : Db),
      lookupMap pmap vr.product_id = none →
      variantImportStep now pmap vr db = (db, none)) ∧
    (∀ (now : String) (payload : ImportPayload) (st : Adapter Db),
      st.inTx = false →
      (∀ e, (jsonImportBody now payload st.mem).2 = some e →
        jsonImport now payload st =
          ((⟨st.mem, st.disk, false⟩, Except.error e),
            [Ev.beginTx, Ev.rollbackTx])) ∧
      ((jsonImportBody now payload st.mem).2 = none →
        jsonImport now payload st =
          ((⟨(jsonImportBody now payload st.mem).1,
             (jsonImportBody now payload st.mem).1, false⟩, Except.ok ()),
            [Ev.beginTx, Ev.commitTx, Ev.persistEv]))) := by
  refine ⟨?_, ?_, ?_, ?_, ?_, ?_, ?_⟩
  · intro now cat db cmap ex h1 h2 hslug
    simp only [categoryImportStep, hslug]
    rw [if_neg (not_or.mpr ⟨h1, h2⟩)]
  · intro now cat db cmap h1 h2 hslug hname
    simp only [categoryImportStep, hslug, hname, Option.isSome_none,
      Bool.false_eq_true, if_false]
    rw [if_neg (not_or.mpr ⟨h1, h2⟩)]
  · intro now cat db cmap h
    simp only [categoryImportStep]
    rw [if_pos h]
  · intro now cmap prod db pmap h1
    constructor
    · simp only [productImportStep]
      rw [if_neg h1]
    · cases hc : prod.category_id <;> simp [productRowOfImport, hc]
  · intro now cmap prod db pmap h1
    simp only [productImportStep]
    rw [if_pos h1]
  · intro now pmap vr db hnone
    simp only [variantImportStep, hnone]
  · intro now payload st h0
    constructor
    · intro e herr
      simp only [jsonImport]
      rw [runTransaction_rollback _ _ e h0 herr]
    · intro hok
      simp only [jsonImport]
      rw [runTransaction_commit _ _ h0 hok]

/-- Category row of the C4 witness payload. -/
def catC4W : CategoryImport :=
  ⟨1, "Binding", "binding", none, none, none, none, none, none, none⟩

/-- Witness for the amended C4: importing a named category whose slug
already exists maps import id 1 to the existing id 5 without inserting,
an unmapped variant is dropped, and a successful import commits and
persists once. -/
theorem claim_C4_amended_json_import_witness :
    catC4W.name ≠ "" ∧ catC4W.slug ≠ "" ∧
    dbC4.categories.find? (fun c => c.slug == catC4W.slug) =
      some ⟨5, "Binding", "binding", "", "", "", "", "", 1, true, "t0", "t0"⟩ ∧
    categoryImportStep "t1" catC4W (dbC4, []) = ((dbC4, [(1, 5)]), none) ∧
    variantImportStep "t1" []
      ⟨7, none, none, none, none, none, none⟩ dbC4 = (dbC4, none) ∧
    jsonImport "t1" ⟨[catC4W], [], []⟩ ⟨dbC4, dbC4, false⟩ =
      ((⟨(jsonImportBody "t1" ⟨[catC4W], [], []⟩ dbC4).1,
         (jsonImportBody "t1" ⟨[catC4W], [], []⟩ dbC4).1, false⟩,
        Except.ok ()), [Ev.beginTx, Ev.commitTx, Ev.persistEv]) :=
  ⟨by decide, by decide, by decide,
    claim_C4_amended_json_import.1 "t1" catC4W dbC4 []
      ⟨5, "Binding", "binding", "", "", "", "", "", 1, true, "t0", "t0"⟩
      (by decide) (by decide) (by decide),
    (claim_C4_amended_json_import.2.2.2.2.2.1 "t1" []
      ⟨7, none, none, none, none, none, none⟩ dbC4 rfl),
    ((claim_C4_amended_json_import.2.2.2.2.2.2 "t1" ⟨[catC4W], [], []⟩
      ⟨dbC4, dbC4, false⟩ rfl).2 (by decide))⟩

example :
    ((jsonImport "t1" payloadC4 ⟨dbC4, dbC4, false⟩).1.1.mem.categories.map
      fun c => c.id) = [5] := by
  decide

end AryaNode
